import Mathlib

/-!
Shallow embedding of the excel-timecode core (src/functions/functions.js) and
verification of its specification claims.

Modelling conventions:
* JavaScript numbers are modelled as exact rationals (`ℚ`) plus explicit
  non-finite values (`JsNum`).  All arithmetic performed by the core on the
  values relevant to the claims is exact integer / small-rational arithmetic,
  so the rational idealization is faithful there.
* Values arriving from the host (which may have the wrong runtime type) are
  modelled by `JsVal`.
* Functions that `throw` are modelled with `Except Err`.
-/

/-- Single error kind carrying a human-readable message.  Models the
`CustomFunctions` invalid-value error produced by `inputValueErr_`; the host
string rendering of the error is abstracted as the message text itself (all
messages below are non-empty, as in the source). -/
inductive Err where
  | invalidInput (msg : String)
deriving DecidableEq, Repr

/-- Models `inputValueErr_(msg)` from the source. -/
def inputValueErr_ (msg : String) : Err := .invalidInput msg

/-- Message text carried by an error. -/
def Err.message : Err → String
  | .invalidInput m => m

/-- Idealized JavaScript number: a finite value (exact rational) or one of the
non-finite values NaN, Infinity, -Infinity. -/
inductive JsNum where
  | fin (q : ℚ)
  | nan
  | posInf
  | negInf
deriving DecidableEq, Repr

/-- Models `Number.isFinite`. -/
def JsNum.isFinite : JsNum → Bool
  | .fin _ => true
  | _ => false

/-- Models `Number.isInteger`. -/
def JsNum.isInteger : JsNum → Bool
  | .fin q => q.den == 1
  | _ => false

/-- Untyped JavaScript value at the host boundary: a number, a string, or
anything else (boolean, null, object, ...), which the core rejects by
`typeof` checks. -/
inductive JsVal where
  | num (x : JsNum)
  | str (s : String)
  | other
deriving DecidableEq, Repr

/-- Characters removed by `String.prototype.trim` (ASCII subset; the inputs
relevant to any claim contain only ASCII). -/
def jsWhitespaceCh (c : Char) : Bool :=
  c == ' ' || c == '\t' || c == '\n' || c == '\r' || c == '\x0b' || c == '\x0c'

/-- Models `String.prototype.trim`. -/
def jsTrim (s : String) : String :=
  String.mk (((s.data.dropWhile jsWhitespaceCh).reverse.dropWhile jsWhitespaceCh).reverse)

/-- Models `String.prototype.toLowerCase` on one character (ASCII lowering;
the inputs relevant to any claim are ASCII). -/
def jsToLowerCh (c : Char) : Char :=
  if 'A' ≤ c ∧ c ≤ 'Z' then Char.ofNat (c.toNat + 32) else c

/-- Models `String.prototype.toLowerCase`. -/
def jsToLower (s : String) : String := String.mk (s.data.map jsToLowerCh)

/-- Models `Math.ceil(a / b)` for natural `a`, `b`: the ceiling of the exact
division (`natCeilDiv_eq_ceil` below justifies this). -/
def natCeilDiv (a b : Nat) : Nat := (a + b - 1) / b

/-- Models `String.prototype.padStart(2, '0')`. -/
def jsPadStart2 (s : String) : String :=
  if s.length < 2 then String.mk (List.replicate (2 - s.length) '0') ++ s else s

/-- Decimal digits of `num/den` (with `num < den`), up to `fuel` digits.
Used only for rendering non-integer numbers; all claim-relevant renderings
are of integers. -/
def decimalDigits : Nat → Nat → Nat → List Char
  | 0, _, _ => []
  | _, 0, _ => []
  | fuel+1, num, den =>
    let num10 := 10 * num
    Char.ofNat (48 + num10 / den) :: decimalDigits fuel (num10 % den) den

/-- Models JavaScript `String(x)` on a finite number.  Exact for integers
(the only claim-relevant case); non-integer rationals are rendered by plain
decimal expansion of the idealized rational. -/
def jsRatStr (q : ℚ) : String :=
  if q.den = 1 then toString q.num
  else
    (if q < 0 then "-" else "") ++ toString ⌊|q|⌋.toNat ++ "." ++
      String.mk (decimalDigits 17 (|q| - (⌊|q|⌋ : ℚ)).num.toNat (|q| - (⌊|q|⌋ : ℚ)).den)

/-- Models JavaScript `String(x)` on any number. -/
def jsNumToStr : JsNum → String
  | .fin q => jsRatStr q
  | .nan => "NaN"
  | .posInf => "Infinity"
  | .negInf => "-Infinity"

/-- An exact rational frame rate, one entry of `FRAME_RATES_`. -/
structure FrameRate where
  frames : Nat
  perWallSecs : Nat
deriving DecidableEq, Repr

/-- Lookup in a literal key/value table, as JavaScript property access on an
object literal. -/
def tableLookup {α : Type} (s : String) : List (String × α) → Option α
  | [] => none
  | (k, v) :: rest => if s = k then some v else tableLookup s rest

/-- A successful table lookup means the key/value pair is in the table. -/
theorem tableLookup_mem {α : Type} (s : String) (v : α) :
    ∀ l : List (String × α), tableLookup s l = some v → (s, v) ∈ l := by
  intro l
  induction l with
  | nil => intro h; exact absurd h (by simp [tableLookup])
  | cons kv rest ih =>
    obtain ⟨k, val⟩ := kv
    intro h
    rw [tableLookup] at h
    split_ifs at h with hk
    · subst hk; injection h with h2; subst h2; exact List.mem_cons_self _ _
    · exact List.mem_cons_of_mem _ (ih h)

/-- The entries of the `FRAME_RATES_` object from the source. -/
def frameRatesTable : List (String × FrameRate) :=
  [("23.976", ⟨24000, 1001⟩), ("23.98", ⟨24000, 1001⟩),
   ("24.000", ⟨24, 1⟩), ("24.00", ⟨24, 1⟩),
   ("25.000", ⟨25, 1⟩), ("25.00", ⟨25, 1⟩),
   ("29.970", ⟨30000, 1001⟩), ("29.97", ⟨30000, 1001⟩),
   ("30.000", ⟨30, 1⟩), ("30.00", ⟨30, 1⟩),
   ("47.952", ⟨48000, 1001⟩), ("47.95", ⟨48000, 1001⟩),
   ("48.000", ⟨48, 1⟩), ("48.00", ⟨48, 1⟩),
   ("50.000", ⟨50, 1⟩), ("50.00", ⟨50, 1⟩),
   ("59.940", ⟨60000, 1001⟩), ("59.94", ⟨60000, 1001⟩),
   ("60.000", ⟨60, 1⟩), ("60.00", ⟨60, 1⟩)]

/-- Models the `FRAME_RATES_` lookup from the source. -/
def FRAME_RATES_ (s : String) : Option FrameRate :=
  tableLookup s frameRatesTable

/-- The entries of the `DROP_FRAMES_PER_10MINS_` object from the source. -/
def dropFramesTable : List (String × Nat) :=
  [("29.970", 18), ("29.97", 18), ("59.940", 36), ("59.94", 36)]

/-- Models the `DROP_FRAMES_PER_10MINS_` lookup from the source. -/
def DROP_FRAMES_PER_10MINS_ (s : String) : Option Nat :=
  tableLookup s dropFramesTable

/-- Character class `[0-9]`. -/
def isDigitCh (c : Char) : Bool := ('0' ≤ c) && (c ≤ '9')

/-- The JavaScript regex metacharacter `.` (unescaped): any character except a
line terminator. -/
def isRegexAnyCh (c : Char) : Bool :=
  !(c == '\n' || c == '\r' || c == '\u2028' || c == '\u2029')

/-- Models the test of the regex `FRAME_RATE_STR_FMT_`, which in the source is
`/^[0-9][0-9].[0-9][0-9][0-9]?$/`.  Note the unescaped `.`: it matches any
character, not only a literal period. -/
def FRAME_RATE_STR_FMT_matches (s : String) : Bool :=
  match s.data with
  | [a, b, c, d, e] =>
      isDigitCh a && isDigitCh b && isRegexAnyCh c && isDigitCh d && isDigitCh e
  | [a, b, c, d, e, f] =>
      isDigitCh a && isDigitCh b && isRegexAnyCh c && isDigitCh d && isDigitCh e && isDigitCh f
  | _ => false

/-- Internal configuration data for a timecode standard (source typedef
`TimecodeStandard`). -/
structure TcStd where
  frames : Nat
  perWallSecs : Nat
  intFps : Nat
  dropFramesPer10Mins : Nat
deriving DecidableEq, Repr

/-- Models `parseTcStd_(frameRateStr, dropTypeStr)` from the source, including
its `typeof` checks, trimming, format test, table lookups and the `Math.ceil`
computation of `intFps`. -/
def parseTcStd_ (frameRate dropType : JsVal) : Except Err TcStd :=
  match frameRate with
  | .str frameRateRaw =>
    let frameRateStr := jsTrim frameRateRaw
    if FRAME_RATE_STR_FMT_matches frameRateStr then
      match FRAME_RATES_ frameRateStr with
      | some rate =>
        match dropType with
        | .str dropTypeRaw =>
          let dropTypeStr := jsToLower (jsTrim dropTypeRaw)
          if dropTypeStr ≠ "drop" ∧ dropTypeStr ≠ "non-drop" then
            .error (inputValueErr_ "dropType value must be \"non-drop\" or \"drop\" (without quotes)")
          else if dropTypeStr = "drop" then
            match DROP_FRAMES_PER_10MINS_ frameRateStr with
            | some dropFrames =>
              .ok ⟨rate.frames, rate.perWallSecs,
                   natCeilDiv rate.frames rate.perWallSecs, dropFrames⟩
            | none =>
              .error (inputValueErr_ ("frameRate " ++ frameRateStr ++ " must be non-drop"))
          else
            .ok ⟨rate.frames, rate.perWallSecs,
                 natCeilDiv rate.frames rate.perWallSecs, 0⟩
        | _ => .error (inputValueErr_ "dropType must be a single plain text value")
      | none => .error (inputValueErr_ ("Unsupported frame rate: \"" ++ frameRateStr ++ "\""))
    else
      .error (inputValueErr_
        "frameRate must contain 2 or 3 digits after period (e.g. \"23.976\" or \"24.00\")")
  | _ => .error (inputValueErr_ "frameRate must be a single plain text value")

/-- A timecode standard is supported when some pair of host inputs resolves
to it. -/
def SupportedStd (std : TcStd) : Prop :=
  ∃ frameRate dropType : JsVal, parseTcStd_ frameRate dropType = .ok std

/-- The twelve distinct `TcStd` values reachable through `parseTcStd_`. -/
def supportedStdList : List TcStd :=
  [⟨24000, 1001, 24, 0⟩, ⟨24, 1, 24, 0⟩, ⟨25, 1, 25, 0⟩,
   ⟨30000, 1001, 30, 0⟩, ⟨30000, 1001, 30, 18⟩, ⟨30, 1, 30, 0⟩,
   ⟨48000, 1001, 48, 0⟩, ⟨48, 1, 48, 0⟩, ⟨50, 1, 50, 0⟩,
   ⟨60000, 1001, 60, 0⟩, ⟨60000, 1001, 60, 36⟩, ⟨60, 1, 60, 0⟩]

/-- Constant `MINS_PER_HR_` from the source. -/
def MINS_PER_HR_ : Nat := 60

/-- Constant `SECS_PER_MIN_` from the source. -/
def SECS_PER_MIN_ : Nat := 60

/-- Parsed numerical timecode (source typedef `ParsedTimecode`).  Both parsing
paths of the source produce non-negative integer fields. -/
structure ParsedTimecode where
  hh : Nat
  mm : Nat
  ss : Nat
  ff : Nat
deriving DecidableEq, Repr

/-- Numeric value of a digit character. -/
def digitVal (c : Char) : Nat := c.toNat - 48

/-- Character class `[:;]` from the regex `TC_STR_FMT_`. -/
def isSepCh (c : Char) : Bool := c == ':' || c == ';'

/-- Models matching against the regex `TC_STR_FMT_`
(`/^([0-9][0-9])[:;]([0-9][0-9])[:;]([0-9][0-9])[:;]([0-9][0-9])$/`), returning
the four captured two-digit fields on success. -/
def TC_STR_FMT_match (s : String) : Option ParsedTimecode :=
  match s.data with
  | [h1, h2, p1, m1, m2, p2, s1, s2, p3, f1, f2] =>
    if isDigitCh h1 && isDigitCh h2 && isSepCh p1 &&
       isDigitCh m1 && isDigitCh m2 && isSepCh p2 &&
       isDigitCh s1 && isDigitCh s2 && isSepCh p3 &&
       isDigitCh f1 && isDigitCh f2 then
      some ⟨10 * digitVal h1 + digitVal h2, 10 * digitVal m1 + digitVal m2,
            10 * digitVal s1 + digitVal s2, 10 * digitVal f1 + digitVal f2⟩
    else none
  | _ => none

/-- Models `parseTc_(timecode)` from the source: a number must be an integer
in `[0, 99999999]` and is decomposed as packed decimal digits `HHMMSSFF`; a
string must match `TC_STR_FMT_` after trimming; other types are rejected. -/
def parseTc_ (timecode : JsVal) : Except Err ParsedTimecode :=
  match timecode with
  | .num x =>
    match x with
    | .fin q =>
      if ¬ (q.den = 1) ∨ q < 0 ∨ 99999999 < q then
        .error (inputValueErr_ "numerical timecode must be an integer in [0, 99999999] range")
      else
        let digits0 := q.num.toNat
        let ff := digits0 % 100
        let digits1 := (digits0 - ff) / 100
        let ss := digits1 % 100
        let digits2 := (digits1 - ss) / 100
        let mm := digits2 % 100
        let digits3 := (digits2 - mm) / 100
        let hh := digits3 % 100
        .ok ⟨hh, mm, ss, ff⟩
    | _ => .error (inputValueErr_ "numerical timecode must be an integer in [0, 99999999] range")
  | .str s =>
    match TC_STR_FMT_match (jsTrim s) with
    | some tc => .ok tc
    | none =>
      .error (inputValueErr_ ("timecode must be in HH:MM:SS:FF format: \"" ++ s ++ "\""))
  | .other =>
    .error (inputValueErr_ "timecode must be a single plain text value or custom format number")

/-- Models `isDropSec_(tc, tcStd)` from the source. -/
def isDropSec_ (tc : ParsedTimecode) (tcStd : TcStd) : Bool :=
  if tcStd.dropFramesPer10Mins = 0 then false
  else (tc.ss == 0) && (tc.mm % 10 != 0)

/-- Models `framesPerDroppedBlock_(tcStd)` from the source. -/
def framesPerDroppedBlock_ (tcStd : TcStd) : Nat :=
  tcStd.dropFramesPer10Mins / 9

/-- Models `tcToStr_(tc)` from the source: zero-pad each field to two digits
and join with colons. -/
def tcToStr_ (tc : ParsedTimecode) : String :=
  jsPadStart2 (toString tc.hh) ++ ":" ++ jsPadStart2 (toString tc.mm) ++ ":" ++
    jsPadStart2 (toString tc.ss) ++ ":" ++ jsPadStart2 (toString tc.ff)

/-- Models `validateTc_(timecode, tc, tcStd)` from the source: range checks on
`mm`, `ss`, `ff`, the dropped-frame check, and the semicolon check against the
original (string-typed) input.  All `hh` digit values are valid. -/
def validateTc_ (timecode : JsVal) (tc : ParsedTimecode) (tcStd : TcStd) : Except Err Unit :=
  if tc.mm ≥ MINS_PER_HR_ then
    .error (inputValueErr_ ("timecode MM must be in range 00-59: \"" ++ toString tc.mm ++ "\""))
  else if tc.ss ≥ SECS_PER_MIN_ then
    .error (inputValueErr_ ("timecode SS must be in range 00-59: \"" ++ toString tc.ss ++ "\""))
  else if tc.ff ≥ tcStd.intFps then
    .error (inputValueErr_ ("timecode FF must be in range 00-" ++ toString (tcStd.intFps - 1) ++
      ": \"" ++ toString tc.ff ++ "\""))
  else if isDropSec_ tc tcStd ∧ tc.ff < framesPerDroppedBlock_ tcStd then
    .error (inputValueErr_ ("timecode invalid: \"" ++ tcToStr_ tc ++ "\" is a dropped frame number"))
  else
    match timecode with
    | .str s =>
      if s.contains ';' ∧ tcStd.dropFramesPer10Mins = 0 then
        .error (inputValueErr_ ("only drop timecode may use semi-colon separator: \"" ++ s ++ "\""))
      else .ok ()
    | _ => .ok ()

/-- Models the exported custom function `TC_ERROR`: runs the parse/validate
pipeline and converts an error into its (non-empty) message text, never
raising. -/
def TC_ERROR (timecode frameRate dropType : JsVal) : String :=
  match (do
      let tcStd ← parseTcStd_ frameRate dropType
      let tc ← parseTc_ timecode
      validateTc_ timecode tc tcStd : Except Err Unit) with
  | .ok _ => ""
  | .error e => e.message

/-- Models `tcToFrameIdx_(tc, tcStd)` from the source.  The result is an
integer (JavaScript numbers subtract without truncation, so the value is
modelled in `ℤ`). -/
def tcToFrameIdx_ (tc : ParsedTimecode) (tcStd : TcStd) : Int :=
  let tcTotalMins := MINS_PER_HR_ * tc.hh + tc.mm
  let tcTotalSecs := SECS_PER_MIN_ * tcTotalMins + tc.ss
  let frameIdx : Int := (tcStd.intFps * tcTotalSecs + tc.ff : Nat)
  if tcStd.dropFramesPer10Mins > 0 then
    let framesDroppedPerHr := 6 * tcStd.dropFramesPer10Mins
    frameIdx - tc.hh * framesDroppedPerHr
      - (tc.mm / 10) * tcStd.dropFramesPer10Mins
      - (tc.mm % 10) * framesPerDroppedBlock_ tcStd
  else
    frameIdx

/-- Models the exported custom function `TC_TO_FRAMEIDX`. -/
def TC_TO_FRAMEIDX (timecode frameRate dropType : JsVal) : Except Err Int := do
  let tcStd ← parseTcStd_ frameRate dropType
  let tc ← parseTc_ timecode
  let _ ← validateTc_ timecode tc tcStd
  pure (tcToFrameIdx_ tc tcStd)

/-- Models `frameIdxToWallSecs_(frameIdx, tcStd)` from the source:
`frameIdx * perWallSecs / frames`. -/
def frameIdxToWallSecs_ (frameIdx : ℚ) (tcStd : TcStd) : ℚ :=
  frameIdx * (tcStd.perWallSecs : ℚ) / (tcStd.frames : ℚ)

/-- Models the exported custom function `FRAMEIDX_TO_WALL_SECS`, including its
non-negative-integer check on `frameIdx`. -/
def FRAMEIDX_TO_WALL_SECS (frameIdx : JsNum) (frameRate dropType : JsVal) :
    Except Err ℚ := do
  let tcStd ← parseTcStd_ frameRate dropType
  match frameIdx with
  | .fin q =>
    if ¬ (q.den = 1) ∨ q < 0 then
      .error (inputValueErr_ "frameIdx must be non-negative integer")
    else
      pure (frameIdxToWallSecs_ q tcStd)
  | _ => .error (inputValueErr_ "frameIdx must be non-negative integer")

/-- Models the exported custom function `TC_TO_WALL_SECS`. -/
def TC_TO_WALL_SECS (timecode frameRate dropType : JsVal) : Except Err ℚ := do
  let tcStd ← parseTcStd_ frameRate dropType
  let tc ← parseTc_ timecode
  let _ ← validateTc_ timecode tc tcStd
  pure (frameIdxToWallSecs_ (tcToFrameIdx_ tc tcStd : ℤ) tcStd)

/-- Models the exported custom function `WALL_SECS_BETWEEN_TCS`:
`(endIdx - startIdx) * perWallSecs / frames`, signed. -/
def WALL_SECS_BETWEEN_TCS (startV endV frameRate dropType : JsVal) : Except Err ℚ := do
  let tcStd ← parseTcStd_ frameRate dropType
  let startTc ← parseTc_ startV
  let _ ← validateTc_ startV startTc tcStd
  let endTc ← parseTc_ endV
  let _ ← validateTc_ endV endTc tcStd
  let startIdx := tcToFrameIdx_ startTc tcStd
  let endIdx := tcToFrameIdx_ endTc tcStd
  pure (((endIdx - startIdx : ℤ) : ℚ) * (tcStd.perWallSecs : ℚ) / (tcStd.frames : ℚ))

/-- Models JavaScript `Math.round` on a finite number: round half towards
positive infinity. -/
def jsRound (q : ℚ) : ℤ := ⌊q + 1 / 2⌋

/-- Models the exported custom function `WALL_SECS_TO_DURSTR`: requires a
finite number, negates a negative input (remembering the sign), rounds to the
nearest whole second, and assembles the `h`/`m`/`s` segments. -/
def WALL_SECS_TO_DURSTR (wallSecs : JsNum) : Except Err String :=
  match wallSecs with
  | .fin q =>
    let isNegative := q < 0
    let q1 := if q < 0 then -q else q
    let secsTotal := (jsRound q1).toNat
    let out0 := if isNegative ∧ secsTotal ≠ 0 then "(-) " else ""
    let hh := secsTotal / (MINS_PER_HR_ * SECS_PER_MIN_)
    let rem1 := secsTotal - (MINS_PER_HR_ * SECS_PER_MIN_) * hh
    let mm := rem1 / SECS_PER_MIN_
    let rem2 := rem1 - SECS_PER_MIN_ * mm
    let ss := rem2
    let out1 := if hh > 0 then out0 ++ toString hh ++ "h " else out0
    let out2 :=
      if hh > 0 ∨ mm > 0 then
        out1 ++ (if hh > 0 then jsPadStart2 (toString mm) else toString mm) ++ "m "
      else out1
    .ok (out2 ++ jsPadStart2 (toString ss) ++ "s")
  | _ => .error (inputValueErr_ "wallSecs must be a finite number")

/-- Duration string exactly as the specification words it: round the
magnitude to the nearest whole second with halves rounding up; prefix
`"(-) "` exactly when the input was negative and the rounded magnitude is
non-zero; omit the hours segment when `hh = 0` and the minutes segment when
`hh = 0` and `mm = 0`; pad minutes to two digits only under an hours segment;
always pad seconds to two digits; single spaces separate segments and the
unit letters attach directly. -/
def durStrSpec (q : ℚ) : String :=
  let n := ⌊|q| + 1 / 2⌋.toNat
  let hh := n / 3600
  let mm := n % 3600 / 60
  let ss := n % 60
  (if q < 0 ∧ n ≠ 0 then "(-) " else "") ++
    (if hh = 0 then "" else toString hh ++ "h ") ++
    (if hh = 0 ∧ mm = 0 then ""
     else (if hh = 0 then toString mm else jsPadStart2 (toString mm)) ++ "m ") ++
    (jsPadStart2 (toString ss) ++ "s")

/-- Models `wallSecsToFractionalFrameIdx_(wallSecs, tcStd)` from the source:
requires a finite number and returns `wallSecs * frames / perWallSecs`. -/
def wallSecsToFractionalFrameIdx_ (wallSecs : JsNum) (tcStd : TcStd) : Except Err ℚ :=
  match wallSecs with
  | .fin q => .ok (q * (tcStd.frames : ℚ) / (tcStd.perWallSecs : ℚ))
  | x => .error (inputValueErr_ ("wallSecs must be a finite number: " ++ jsNumToStr x))

/-- Models the exported custom function `WALL_SECS_TO_FRAMEIDX_LEFT`
(`Math.floor` of the fractional frame index). -/
def WALL_SECS_TO_FRAMEIDX_LEFT (wallSecs : JsNum) (frameRate dropType : JsVal) :
    Except Err ℤ := do
  let tcStd ← parseTcStd_ frameRate dropType
  let fractionalFrameIdx ← wallSecsToFractionalFrameIdx_ wallSecs tcStd
  pure ⌊fractionalFrameIdx⌋

/-- Models the exported custom function `WALL_SECS_TO_FRAMEIDX_RIGHT`
(`Math.ceil` of the fractional frame index). -/
def WALL_SECS_TO_FRAMEIDX_RIGHT (wallSecs : JsNum) (frameRate dropType : JsVal) :
    Except Err ℤ := do
  let tcStd ← parseTcStd_ frameRate dropType
  let fractionalFrameIdx ← wallSecsToFractionalFrameIdx_ wallSecs tcStd
  pure ⌈fractionalFrameIdx⌉

/-- Models `framesDroppedBeforeFrameIdx_(frameIdx, tcStd)` from the source,
over an arbitrary (possibly fractional) frame index as supplied by the
JavaScript number type.  All intermediate dropped-frame counts are integers. -/
def framesDroppedBeforeFrameIdx_ (frameIdx : ℚ) (tcStd : TcStd) : ℤ :=
  if tcStd.dropFramesPer10Mins = 0 then 0
  else
    let framesPerNonDropMin : ℤ := (tcStd.intFps * SECS_PER_MIN_ : Nat)
    let framesPerDroppedBlock : ℤ := framesPerDroppedBlock_ tcStd
    let framesPerDropMin : ℤ := framesPerNonDropMin - framesPerDroppedBlock
    let framesPer10Mins : ℤ := 10 * framesPerNonDropMin - (tcStd.dropFramesPer10Mins : ℤ)
    let numComplete10MinBlocks : ℤ := ⌊frameIdx / (framesPer10Mins : ℚ)⌋
    let framesRemaining : ℚ := frameIdx - (framesPer10Mins : ℚ) * (numComplete10MinBlocks : ℚ)
    let numDroppedFrames : ℤ := numComplete10MinBlocks * (tcStd.dropFramesPer10Mins : ℤ)
    if framesRemaining ≥ (framesPerNonDropMin : ℚ) then
      let framesRemaining2 := framesRemaining - (framesPerNonDropMin : ℚ)
      let numCompleteDropMins : ℤ := ⌊framesRemaining2 / (framesPerDropMin : ℚ)⌋
      numDroppedFrames + (numCompleteDropMins + 1) * framesPerDroppedBlock
    else
      numDroppedFrames

/-- Pads the JavaScript rendering of a number to two characters; the field
values produced by `frameIdxToTc_` are rendered with this. -/
def jsPadStart2Num (q : ℚ) : String := jsPadStart2 (jsRatStr q)

/-- Models `frameIdxToTc_(frameIdx, tcStd)` from the source: rejects negative
indices, adds back dropped frames, decomposes into `hh:mm:ss:ff` by repeated
floor-division/subtraction, and renders the timecode string. -/
def frameIdxToTc_ (frameIdx : ℚ) (tcStd : TcStd) : Except Err String :=
  if frameIdx < 0 then
    .error (inputValueErr_ "negative timecode values are not supported")
  else
    let framesPerMin : ℤ := (tcStd.intFps * SECS_PER_MIN_ : Nat)
    let framesPerHr : ℤ := framesPerMin * (MINS_PER_HR_ : ℤ)
    let framesRemaining0 : ℚ := frameIdx + (framesDroppedBeforeFrameIdx_ frameIdx tcStd : ℚ)
    let hh : ℤ := ⌊framesRemaining0 / (framesPerHr : ℚ)⌋
    let framesRemaining1 : ℚ := framesRemaining0 - (hh : ℚ) * (framesPerHr : ℚ)
    let mm : ℤ := ⌊framesRemaining1 / (framesPerMin : ℚ)⌋
    let framesRemaining2 : ℚ := framesRemaining1 - (mm : ℚ) * (framesPerMin : ℚ)
    let ss : ℤ := ⌊framesRemaining2 / (tcStd.intFps : ℚ)⌋
    let ff : ℚ := framesRemaining2 - (ss : ℚ) * (tcStd.intFps : ℚ)
    .ok (jsPadStart2Num (hh : ℚ) ++ ":" ++ jsPadStart2Num (mm : ℚ) ++ ":" ++
         jsPadStart2Num (ss : ℚ) ++ ":" ++ jsPadStart2Num ff)

/-- Models the exported custom function `FRAMEIDX_TO_TC`.  No integrality
check is performed on `frameIdx` (the source has none). -/
def FRAMEIDX_TO_TC (frameIdx : ℚ) (frameRate dropType : JsVal) : Except Err String := do
  let tcStd ← parseTcStd_ frameRate dropType
  frameIdxToTc_ frameIdx tcStd

/-- Models the exported custom function `WALL_SECS_TO_TC_LEFT`. -/
def WALL_SECS_TO_TC_LEFT (wallSecs : JsNum) (frameRate dropType : JsVal) :
    Except Err String := do
  let tcStd ← parseTcStd_ frameRate dropType
  let fractionalFrameIdx ← wallSecsToFractionalFrameIdx_ wallSecs tcStd
  frameIdxToTc_ ((⌊fractionalFrameIdx⌋ : ℤ) : ℚ) tcStd

/-- Models the exported custom function `WALL_SECS_TO_TC_RIGHT`. -/
def WALL_SECS_TO_TC_RIGHT (wallSecs : JsNum) (frameRate dropType : JsVal) :
    Except Err String := do
  let tcStd ← parseTcStd_ frameRate dropType
  let fractionalFrameIdx ← wallSecsToFractionalFrameIdx_ wallSecs tcStd
  frameIdxToTc_ ((⌈fractionalFrameIdx⌉ : ℤ) : ℚ) tcStd

/-- Restriction of `framesDroppedBeforeFrameIdx_` to the non-negative integer
frame indices actually produced by the conversion pipeline, in `ℕ`
(`Math.floor` on a non-negative integer quotient is `Nat` division). -/
def framesDroppedBeforeNat_ (frameIdx : Nat) (tcStd : TcStd) : Nat :=
  if tcStd.dropFramesPer10Mins = 0 then 0
  else
    let framesPerNonDropMin := tcStd.intFps * SECS_PER_MIN_
    let framesPerDroppedBlock := framesPerDroppedBlock_ tcStd
    let framesPerDropMin := framesPerNonDropMin - framesPerDroppedBlock
    let framesPer10Mins := 10 * framesPerNonDropMin - tcStd.dropFramesPer10Mins
    let numComplete10MinBlocks := frameIdx / framesPer10Mins
    let framesRemaining := frameIdx - framesPer10Mins * numComplete10MinBlocks
    let numDroppedFrames := numComplete10MinBlocks * tcStd.dropFramesPer10Mins
    if framesRemaining ≥ framesPerNonDropMin then
      let framesRemaining2 := framesRemaining - framesPerNonDropMin
      let numCompleteDropMins := framesRemaining2 / framesPerDropMin
      numDroppedFrames + (numCompleteDropMins + 1) * framesPerDroppedBlock
    else
      numDroppedFrames

/-- Restriction of the field decomposition of `frameIdxToTc_` to non-negative
integer frame indices, returning the structured timecode (the spec level
`frameIndexToTimecode`). -/
def frameIdxToParsedTc_ (frameIdx : Nat) (tcStd : TcStd) : ParsedTimecode :=
  let framesPerMin := tcStd.intFps * SECS_PER_MIN_
  let framesPerHr := framesPerMin * MINS_PER_HR_
  let framesRemaining0 := frameIdx + framesDroppedBeforeNat_ frameIdx tcStd
  let hh := framesRemaining0 / framesPerHr
  let framesRemaining1 := framesRemaining0 - hh * framesPerHr
  let mm := framesRemaining1 / framesPerMin
  let framesRemaining2 := framesRemaining1 - mm * framesPerMin
  let ss := framesRemaining2 / tcStd.intFps
  let ff := framesRemaining2 - ss * tcStd.intFps
  ⟨hh, mm, ss, ff⟩

instance {ε α : Type} [DecidableEq ε] [DecidableEq α] : DecidableEq (Except ε α) := fun x y =>
  match x, y with
  | .ok a, .ok b =>
    if h : a = b then .isTrue (by rw [h]) else .isFalse (fun hc => by cases hc; exact h rfl)
  | .error a, .error b =>
    if h : a = b then .isTrue (by rw [h]) else .isFalse (fun hc => by cases hc; exact h rfl)
  | .ok _, .error _ => .isFalse (fun hc => by cases hc)
  | .error _, .ok _ => .isFalse (fun hc => by cases hc)

/-- The `natCeilDiv` model of `Math.ceil(a / b)` agrees with the ceiling of
the exact rational division. -/
theorem natCeilDiv_eq_ceil (a b : Nat) (hb : 0 < b) :
    natCeilDiv a b = ⌈(a : ℚ) / (b : ℚ)⌉₊ := by
  rcases Nat.eq_zero_or_pos a with ha | ha
  · subst ha
    simp only [natCeilDiv, Nat.cast_zero, zero_div, Nat.ceil_zero, Nat.zero_add]
    exact Nat.div_eq_of_lt (by omega)
  · have hq : (0 : ℚ) < (b : ℚ) := by exact_mod_cast hb
    have e1 := Nat.div_add_mod (a + b - 1) b
    have hrb : (a + b - 1) % b < b := Nat.mod_lt _ hb
    obtain ⟨m, hm⟩ : ∃ m, (a + b - 1) / b = m + 1 := by
      refine ⟨(a + b - 1) / b - 1, ?_⟩
      have : 0 < (a + b - 1) / b := Nat.div_pos (by omega) hb
      omega
    rw [hm] at e1
    have e2 : b * (m + 1) = b * m + b := by ring
    have ha2 : a = b * m + ((a + b - 1) % b + 1) := by omega
    have hceil : natCeilDiv a b = m + 1 := by
      simp only [natCeilDiv, hm]
    rw [hceil, eq_comm, Nat.ceil_eq_iff (Nat.succ_ne_zero m), Nat.succ_sub_one]
    constructor
    · rw [lt_div_iff₀ hq]
      have h3 : m * b < a := by
        have := e2
        have hmb : b * m = m * b := Nat.mul_comm b m
        omega
      exact_mod_cast h3
    · rw [div_le_iff₀ hq]
      have h4 : a ≤ (m + 1) * b := by
        have := e2
        have hmb : b * (m + 1) = (m + 1) * b := Nat.mul_comm b (m + 1)
        omega
      exact_mod_cast h4

/-- The standard built from a table entry with the given drop-frame count. -/
def mkStd (rate : FrameRate) (dropFrames : Nat) : TcStd :=
  ⟨rate.frames, rate.perWallSecs, natCeilDiv rate.frames rate.perWallSecs, dropFrames⟩

/-- Every frame-rate table entry yields a supported-list standard, both in the
non-drop form and (when the drop table has the label) in the drop form. -/
theorem frameRatesTable_stds :
    ∀ kv ∈ frameRatesTable,
      mkStd kv.2 0 ∈ supportedStdList ∧
      ∀ d ∈ DROP_FRAMES_PER_10MINS_ kv.1, mkStd kv.2 d ∈ supportedStdList := by
  decide

/-- Inversion: every standard produced by `parseTcStd_` is in the supported
list. -/
theorem parseTcStd_ok_mem (fr dt : JsVal) (std : TcStd)
    (h : parseTcStd_ fr dt = .ok std) : std ∈ supportedStdList := by
  rcases fr with _ | frRaw | _
  · exact absurd h (by simp [parseTcStd_])
  · simp only [parseTcStd_] at h
    split at h
    · split at h
      next rate hR =>
        have hpair := frameRatesTable_stds _ (tableLookup_mem _ _ _ hR)
        split at h
        next dtRaw =>
          split at h
          next h1 => exact absurd h (by simp)
          next h1 =>
            split at h
            next h2 =>
              split at h
              next dropF hD =>
                injection h with h3
                subst h3
                exact hpair.2 dropF (by rw [hD]; rfl)
              next hD => exact absurd h (by simp)
            next h2 =>
              injection h with h3
              subst h3
              exact hpair.1
        next hdt => exact absurd h (by simp)
      next hR => exact absurd h (by simp)
    · exact absurd h (by simp)
  · exact absurd h (by simp [parseTcStd_])

/-- Every supported standard is in the explicit list. -/
theorem supportedStd_mem (std : TcStd) (h : SupportedStd std) :
    std ∈ supportedStdList := by
  obtain ⟨fr, dt, hok⟩ := h
  exact parseTcStd_ok_mem fr dt std hok

/-- Every standard in the explicit list is reachable from host inputs. -/
theorem supportedStdList_supported :
    ∀ std ∈ supportedStdList, SupportedStd std := by
  intro std hmem
  simp only [supportedStdList, List.mem_cons, List.not_mem_nil, or_false] at hmem
  rcases hmem with rfl|rfl|rfl|rfl|rfl|rfl|rfl|rfl|rfl|rfl|rfl|rfl
  · exact ⟨.str "23.976", .str "non-drop", by decide⟩
  · exact ⟨.str "24.00", .str "non-drop", by decide⟩
  · exact ⟨.str "25.00", .str "non-drop", by decide⟩
  · exact ⟨.str "29.97", .str "non-drop", by decide⟩
  · exact ⟨.str "29.97", .str "drop", by decide⟩
  · exact ⟨.str "30.00", .str "non-drop", by decide⟩
  · exact ⟨.str "47.95", .str "non-drop", by decide⟩
  · exact ⟨.str "48.00", .str "non-drop", by decide⟩
  · exact ⟨.str "50.00", .str "non-drop", by decide⟩
  · exact ⟨.str "59.94", .str "non-drop", by decide⟩
  · exact ⟨.str "59.94", .str "drop", by decide⟩
  · exact ⟨.str "60.00", .str "non-drop", by decide⟩

/-- Characterization of successful validation: exactly the checks performed by
`validateTc_` succeed. -/
theorem validateTc_ok_iff (timecode : JsVal) (tc : ParsedTimecode) (tcStd : TcStd) :
    validateTc_ timecode tc tcStd = .ok () ↔
      (tc.mm < 60 ∧ tc.ss < 60 ∧ tc.ff < tcStd.intFps ∧
       ¬ (tcStd.dropFramesPer10Mins ≠ 0 ∧ tc.ss = 0 ∧ tc.mm % 10 ≠ 0 ∧
          tc.ff < tcStd.dropFramesPer10Mins / 9) ∧
       ∀ s, timecode = .str s → s.contains ';' → tcStd.dropFramesPer10Mins ≠ 0) := by
  unfold validateTc_ MINS_PER_HR_ SECS_PER_MIN_
  split_ifs with h1 h2 h3 h4
  · exact iff_of_false (by simp) (by omega)
  · exact iff_of_false (by simp) (by omega)
  · exact iff_of_false (by simp) (by omega)
  · refine iff_of_false (by simp) ?_
    rintro ⟨hmm, hss, hff, hnd, hsem⟩
    simp only [isDropSec_, framesPerDroppedBlock_] at h4
    obtain ⟨hb, hf⟩ := h4
    split_ifs at hb with hD
    simp only [Bool.and_eq_true, beq_iff_eq, bne_iff_ne] at hb
    exact hnd ⟨hD, hb.1, hb.2, hf⟩
  · have hnd : ¬ (tcStd.dropFramesPer10Mins ≠ 0 ∧ tc.ss = 0 ∧ tc.mm % 10 ≠ 0 ∧
        tc.ff < tcStd.dropFramesPer10Mins / 9) := by
      rintro ⟨hD, hss, hmm10, hf⟩
      apply h4
      simp only [isDropSec_, framesPerDroppedBlock_]
      rw [if_neg hD]
      exact ⟨by simp [hss, hmm10], hf⟩
    rcases timecode with x | s | _
    · exact iff_of_true rfl ⟨by omega, by omega, by omega, hnd, by intro s h hc; cases h⟩
    · dsimp only
      split_ifs with h5
      · refine iff_of_false (by simp) ?_
        rintro ⟨_, _, _, _, hsem⟩
        exact (hsem s rfl h5.1) h5.2
      · refine iff_of_true rfl ⟨by omega, by omega, by omega, hnd, ?_⟩
        rintro s1 heq hc hD0
        injection heq with h6
        subst h6
        exact h5 ⟨hc, hD0⟩
    · exact iff_of_true rfl ⟨by omega, by omega, by omega, hnd, by intro s h hc; cases h⟩

/-- Dropped-frame count of `framesDroppedBeforeNat_` under the 29.97 drop
standard, for a frame index decomposed into complete 10-minute blocks `k` and
an in-block position given by drop-minute `v`, second `s` and frame `f`. -/
theorem framesDropped2997 (k v s f : Nat) (hv : v ≤ 9) (hs : s < 60) (hf : f < 30)
    (hval : v ≠ 0 → 2 ≤ 30 * s + f) :
    framesDroppedBeforeNat_ (17982 * k + (1798 * v + 30 * s + f)) ⟨30000, 1001, 30, 18⟩ =
      18 * k + 2 * v := by
  have hdiv : (17982 * k + (1798 * v + 30 * s + f)) / 17982 = k := by omega
  simp only [framesDroppedBeforeNat_, framesPerDroppedBlock_, MINS_PER_HR_, SECS_PER_MIN_]
  norm_num
  split_ifs <;> omega

/-- Dropped-frame count of `framesDroppedBeforeNat_` under the 59.94 drop
standard, in the same decomposed form. -/
theorem framesDropped5994 (k v s f : Nat) (hv : v ≤ 9) (hs : s < 60) (hf : f < 60)
    (hval : v ≠ 0 → 4 ≤ 60 * s + f) :
    framesDroppedBeforeNat_ (35964 * k + (3596 * v + 60 * s + f)) ⟨60000, 1001, 60, 36⟩ =
      36 * k + 4 * v := by
  have hdiv : (35964 * k + (3596 * v + 60 * s + f)) / 35964 = k := by omega
  simp only [framesDroppedBeforeNat_, framesPerDroppedBlock_, MINS_PER_HR_, SECS_PER_MIN_]
  norm_num
  split_ifs <;> omega

/-- Under a non-drop standard the frame index of a timecode is the plain
positional value. -/
theorem tcToFrameIdx_nondrop (std : TcStd) (hD : std.dropFramesPer10Mins = 0)
    (tc : ParsedTimecode) :
    tcToFrameIdx_ tc std =
      ((std.intFps * (60 * (60 * tc.hh + tc.mm) + tc.ss) + tc.ff : Nat) : Int) := by
  simp only [tcToFrameIdx_, MINS_PER_HR_, SECS_PER_MIN_, hD]
  norm_num

/-- Decomposition of a positional frame count under a non-drop standard
recovers the timecode fields. -/
theorem frameIdxToParsedTc_nondrop (std : TcStd) (hD : std.dropFramesPer10Mins = 0)
    (hf : 0 < std.intFps) (hh mm ss ff : Nat)
    (hmm : mm < 60) (hss : ss < 60) (hff : ff < std.intFps) :
    frameIdxToParsedTc_ (std.intFps * (60 * (60 * hh + mm) + ss) + ff) std =
      ⟨hh, mm, ss, ff⟩ := by
  set f := std.intFps with hfdef
  have hA : 0 < f * 60 := by positivity
  have hH : 0 < f * 60 * 60 := by positivity
  simp only [frameIdxToParsedTc_, framesDroppedBeforeNat_, MINS_PER_HR_, SECS_PER_MIN_, hD]
  norm_num
  have hNeq : f * (60 * (60 * hh + mm) + ss) + ff =
      (f * 60 * mm + (f * ss + ff)) + (f * 60 * 60) * hh := by ring
  have hRm : f * ss + ff < f * 60 := by nlinarith
  have hR : f * 60 * mm + (f * ss + ff) < f * 60 * 60 := by nlinarith
  have e1 : (f * (60 * (60 * hh + mm) + ss) + ff) / (f * 60 * 60) = hh := by
    rw [hNeq, Nat.add_mul_div_left _ _ hH, Nat.div_eq_of_lt hR, Nat.zero_add]
  rw [e1]
  have e2 : f * (60 * (60 * hh + mm) + ss) + ff - hh * (f * 60 * 60) =
      f * 60 * mm + (f * ss + ff) := by
    have hc : (f * 60 * 60) * hh = hh * (f * 60 * 60) := by ring
    omega
  rw [e2]
  have e3 : (f * 60 * mm + (f * ss + ff)) / (f * 60) = mm := by
    rw [show f * 60 * mm + (f * ss + ff) = (f * ss + ff) + (f * 60) * mm from by ring,
      Nat.add_mul_div_left _ _ hA, Nat.div_eq_of_lt hRm, Nat.zero_add]
  rw [e3]
  have e4 : f * 60 * mm + (f * ss + ff) - mm * (f * 60) = f * ss + ff := by
    have hc : (f * 60) * mm = mm * (f * 60) := by ring
    omega
  rw [e4]
  have e5 : (f * ss + ff) / f = ss := by
    rw [show f * ss + ff = ff + f * ss from by ring,
      Nat.add_mul_div_left _ _ hf, Nat.div_eq_of_lt hff, Nat.zero_add]
  rw [e5]
  have e6 : f * ss + ff - ss * f = ff := by
    have hc : f * ss = ss * f := by ring
    omega
  rw [e6]
  exact ⟨rfl, rfl, rfl, rfl⟩

set_option maxHeartbeats 4000000 in
/-- Round trip, first direction: converting any frame index to a timecode and
back yields the index, for every supported standard. -/
theorem tcRoundTrip1 (std : TcStd) (hmem : std ∈ supportedStdList) (i : Nat) :
    tcToFrameIdx_ (frameIdxToParsedTc_ i std) std = (i : Int) := by
  simp only [supportedStdList, List.mem_cons, List.not_mem_nil, or_false] at hmem
  rcases hmem with rfl|rfl|rfl|rfl|rfl|rfl|rfl|rfl|rfl|rfl|rfl|rfl <;>
  · simp only [frameIdxToParsedTc_, framesDroppedBeforeNat_, tcToFrameIdx_,
      framesPerDroppedBlock_, MINS_PER_HR_, SECS_PER_MIN_]
    norm_num
    first
    | omega
    | (split_ifs <;> omega)

set_option maxHeartbeats 4000000 in
/-- Round trip, second direction: a timecode whose fields pass the numeric
validity checks maps to a non-negative frame index that decomposes back to the
same timecode, for every supported standard. -/
theorem tcRoundTrip2 (std : TcStd) (hmem : std ∈ supportedStdList) (hh mm ss ff : Nat)
    (hmm : mm < 60) (hss : ss < 60) (hff : ff < std.intFps)
    (hnd : ¬(std.dropFramesPer10Mins ≠ 0 ∧ ss = 0 ∧ mm % 10 ≠ 0 ∧
        ff < std.dropFramesPer10Mins / 9)) :
    0 ≤ tcToFrameIdx_ ⟨hh, mm, ss, ff⟩ std ∧
      frameIdxToParsedTc_ (tcToFrameIdx_ ⟨hh, mm, ss, ff⟩ std).toNat std = ⟨hh, mm, ss, ff⟩ := by
  simp only [supportedStdList, List.mem_cons, List.not_mem_nil, or_false] at hmem
  rcases hmem with rfl|rfl|rfl|rfl|rfl|rfl|rfl|rfl|rfl|rfl|rfl|rfl
  · rw [tcToFrameIdx_nondrop _ rfl]
    refine ⟨Int.natCast_nonneg _, ?_⟩
    rw [Int.toNat_natCast]
    exact frameIdxToParsedTc_nondrop _ rfl (by norm_num) hh mm ss ff hmm hss hff
  · rw [tcToFrameIdx_nondrop _ rfl]
    refine ⟨Int.natCast_nonneg _, ?_⟩
    rw [Int.toNat_natCast]
    exact frameIdxToParsedTc_nondrop _ rfl (by norm_num) hh mm ss ff hmm hss hff
  · rw [tcToFrameIdx_nondrop _ rfl]
    refine ⟨Int.natCast_nonneg _, ?_⟩
    rw [Int.toNat_natCast]
    exact frameIdxToParsedTc_nondrop _ rfl (by norm_num) hh mm ss ff hmm hss hff
  · rw [tcToFrameIdx_nondrop _ rfl]
    refine ⟨Int.natCast_nonneg _, ?_⟩
    rw [Int.toNat_natCast]
    exact frameIdxToParsedTc_nondrop _ rfl (by norm_num) hh mm ss ff hmm hss hff
  · simp only at hff hnd
    have hidx : tcToFrameIdx_ ⟨hh, mm, ss, ff⟩ ⟨30000, 1001, 30, 18⟩ =
        ((17982 * (6 * hh + mm / 10) + (1798 * (mm % 10) + 30 * ss + ff) : Nat) : Int) := by
      simp only [tcToFrameIdx_, framesPerDroppedBlock_, MINS_PER_HR_, SECS_PER_MIN_]
      norm_num
      omega
    rw [hidx]
    refine ⟨Int.natCast_nonneg _, ?_⟩
    rw [Int.toNat_natCast]
    simp only [frameIdxToParsedTc_, MINS_PER_HR_, SECS_PER_MIN_]
    rw [framesDropped2997 (6 * hh + mm / 10) (mm % 10) ss ff (by omega) hss (by omega)
      (by omega)]
    have e1 : (17982 * (6 * hh + mm / 10) + (1798 * (mm % 10) + 30 * ss + ff) +
        (18 * (6 * hh + mm / 10) + 2 * (mm % 10))) / (30 * 60 * 60) = hh := by omega
    simp only [ParsedTimecode.mk.injEq]
    refine ⟨?_, ?_, ?_, ?_⟩ <;> omega
  · rw [tcToFrameIdx_nondrop _ rfl]
    refine ⟨Int.natCast_nonneg _, ?_⟩
    rw [Int.toNat_natCast]
    exact frameIdxToParsedTc_nondrop _ rfl (by norm_num) hh mm ss ff hmm hss hff
  · rw [tcToFrameIdx_nondrop _ rfl]
    refine ⟨Int.natCast_nonneg _, ?_⟩
    rw [Int.toNat_natCast]
    exact frameIdxToParsedTc_nondrop _ rfl (by norm_num) hh mm ss ff hmm hss hff
  · rw [tcToFrameIdx_nondrop _ rfl]
    refine ⟨Int.natCast_nonneg _, ?_⟩
    rw [Int.toNat_natCast]
    exact frameIdxToParsedTc_nondrop _ rfl (by norm_num) hh mm ss ff hmm hss hff
  · rw [tcToFrameIdx_nondrop _ rfl]
    refine ⟨Int.natCast_nonneg _, ?_⟩
    rw [Int.toNat_natCast]
    exact frameIdxToParsedTc_nondrop _ rfl (by norm_num) hh mm ss ff hmm hss hff
  · rw [tcToFrameIdx_nondrop _ rfl]
    refine ⟨Int.natCast_nonneg _, ?_⟩
    rw [Int.toNat_natCast]
    exact frameIdxToParsedTc_nondrop _ rfl (by norm_num) hh mm ss ff hmm hss hff
  · simp only at hff hnd
    have hidx : tcToFrameIdx_ ⟨hh, mm, ss, ff⟩ ⟨60000, 1001, 60, 36⟩ =
        ((35964 * (6 * hh + mm / 10) + (3596 * (mm % 10) + 60 * ss + ff) : Nat) : Int) := by
      simp only [tcToFrameIdx_, framesPerDroppedBlock_, MINS_PER_HR_, SECS_PER_MIN_]
      norm_num
      omega
    rw [hidx]
    refine ⟨Int.natCast_nonneg _, ?_⟩
    rw [Int.toNat_natCast]
    simp only [frameIdxToParsedTc_, MINS_PER_HR_, SECS_PER_MIN_]
    rw [framesDropped5994 (6 * hh + mm / 10) (mm % 10) ss ff (by omega) hss (by omega)
      (by omega)]
    have e1 : (35964 * (6 * hh + mm / 10) + (3596 * (mm % 10) + 60 * ss + ff) +
        (36 * (6 * hh + mm / 10) + 4 * (mm % 10))) / (60 * 60 * 60) = hh := by omega
    simp only [ParsedTimecode.mk.injEq]
    refine ⟨?_, ?_, ?_, ?_⟩ <;> omega
  · rw [tcToFrameIdx_nondrop _ rfl]
    refine ⟨Int.natCast_nonneg _, ?_⟩
    rw [Int.toNat_natCast]
    exact frameIdxToParsedTc_nondrop _ rfl (by norm_num) hh mm ss ff hmm hss hff

set_option maxHeartbeats 1000000 in
/-- Frame index 0 renders as the origin timecode under every supported
standard. -/
theorem frameIdxToTc_zero (std : TcStd) (hmem : std ∈ supportedStdList) :
    frameIdxToTc_ 0 std = .ok "00:00:00:00" := by
  simp only [supportedStdList, List.mem_cons, List.not_mem_nil, or_false] at hmem
  rcases hmem with rfl|rfl|rfl|rfl|rfl|rfl|rfl|rfl|rfl|rfl|rfl|rfl <;>
  · simp only [frameIdxToTc_, framesDroppedBeforeFrameIdx_, framesPerDroppedBlock_,
      MINS_PER_HR_, SECS_PER_MIN_, jsPadStart2Num]
    norm_num [jsRatStr, jsPadStart2]
    decide

/-- The supported standards all have positive frame-rate parameters. -/
theorem supportedStdList_pos :
    ∀ std ∈ supportedStdList, 0 < std.frames ∧ 0 < std.perWallSecs ∧ 0 < std.intFps := by
  decide

/-- Appending strings concatenates their character lists. -/
theorem str_mk_append (la lb : List Char) :
    String.mk la ++ String.mk lb = String.mk (la ++ lb) := rfl

/-- A string with a non-empty prefix is non-empty. -/
theorem str_append_ne_empty_left (a b : String) (h : a ≠ "") : a ++ b ≠ "" := by
  obtain ⟨la⟩ := a
  obtain ⟨lb⟩ := b
  intro hc
  have hdata : la ++ lb = ([] : List Char) := congrArg String.data hc
  rcases List.append_eq_nil.mp hdata with ⟨h1, h2⟩
  exact h (by rw [h1])

/-- Binding a success value runs the continuation. -/
theorem except_bind_ok {α β : Type} (a : α) (k : α → Except Err β) :
    (Except.ok a >>= k) = k a := rfl

/-- Binding an error short-circuits. -/
theorem except_bind_err {α β : Type} (e : Err) (k : α → Except Err β) :
    ((Except.error e : Except Err α) >>= k) = Except.error e := rfl

/-- Every error produced by `parseTcStd_` carries a non-empty message. -/
theorem parseTcStd_error_msg (fr dt : JsVal) (e : Err)
    (h : parseTcStd_ fr dt = .error e) : e.message ≠ "" := by
  rcases fr with _ | frRaw | _ <;> simp only [parseTcStd_] at h <;> repeat' split at h
  all_goals first
    | exact Except.noConfusion h
    | (injection h with h2; subst h2; simp only [inputValueErr_, Err.message]; first
        | decide
        | ((repeat apply str_append_ne_empty_left); decide))

/-- Every error produced by `parseTc_` carries a non-empty message. -/
theorem parseTc_error_msg (t : JsVal) (e : Err)
    (h : parseTc_ t = .error e) : e.message ≠ "" := by
  rcases t with x | s | _ <;> simp only [parseTc_] at h <;> repeat' split at h
  all_goals first
    | exact Except.noConfusion h
    | (injection h with h2; subst h2; simp only [inputValueErr_, Err.message]; first
        | decide
        | ((repeat apply str_append_ne_empty_left); decide))

/-- Every error produced by `validateTc_` carries a non-empty message. -/
theorem validateTc_error_msg (t : JsVal) (tc : ParsedTimecode) (std : TcStd) (e : Err)
    (h : validateTc_ t tc std = .error e) : e.message ≠ "" := by
  simp only [validateTc_] at h
  repeat' split at h
  all_goals first
    | exact Except.noConfusion h
    | (injection h with h2; subst h2; simp only [inputValueErr_, Err.message]; first
        | decide
        | ((repeat apply str_append_ne_empty_left); decide))

/-- Floor of an exact rational division of naturals is natural division. -/
theorem rat_floor_natCast_div_natCast (a b : ℕ) :
    ⌊(a : ℚ) / (b : ℚ)⌋ = ((a / b : ℕ) : ℤ) := by
  rw [Rat.floor_natCast_div_natCast]
  omega

/-- Rendering an integral rational coming from a natural number gives the
plain decimal digits of that natural number. -/
theorem jsRatStr_natCast (k : ℕ) : jsRatStr ((k : ℕ) : ℚ) = toString k := by
  simp only [jsRatStr, Rat.den_natCast, Rat.num_natCast, eq_self_iff_true, if_true]
  rfl

/-- On natural-number frame indices, the rational dropped-frame count of the
source agrees with its `ℕ` restriction, under the 29.97 drop standard. -/
theorem framesDroppedCast2997 (n : ℕ) :
    framesDroppedBeforeFrameIdx_ (n : ℚ) ⟨30000, 1001, 30, 18⟩ =
      (framesDroppedBeforeNat_ n ⟨30000, 1001, 30, 18⟩ : ℤ) := by
  simp only [framesDroppedBeforeFrameIdx_, framesDroppedBeforeNat_, framesPerDroppedBlock_,
    MINS_PER_HR_, SECS_PER_MIN_]
  simp only [if_neg (show ¬(18 : ℕ) = 0 from by decide), Nat.reduceMul, Nat.reduceDiv,
    Nat.reduceSub, Nat.cast_ofNat, Int.reduceMul, Int.reduceSub]
  have hq : ⌊(n : ℚ) / ((17982 : ℤ) : ℚ)⌋ = ((n / 17982 : ℕ) : ℤ) := by
    rw [show ((17982 : ℤ) : ℚ) = ((17982 : ℕ) : ℚ) from by norm_num]
    exact rat_floor_natCast_div_natCast n 17982
  rw [hq]
  have hle : 17982 * (n / 17982) ≤ n := by omega
  have hrem : (n : ℚ) - ((17982 : ℤ) : ℚ) * (((n / 17982 : ℕ) : ℤ) : ℚ)
      = ((n - 17982 * (n / 17982) : ℕ) : ℚ) := by
    push_cast [hle]
    rw [show (((n : ℤ) / 17982 : ℤ) : ℚ) = ((n / 17982 : ℕ) : ℚ) from
      (congrArg (fun z : ℤ => (z : ℚ))
        (show ((n : ℤ) / 17982 : ℤ) = ((n / 17982 : ℕ) : ℤ) from by omega)).trans
      (Int.cast_natCast _)]
  rw [hrem]
  set r : ℕ := n - 17982 * (n / 17982) with hr
  by_cases hc : 1800 ≤ r
  · rw [if_pos (show ((r : ℚ) ≥ ((1800 : ℤ) : ℚ)) from by exact_mod_cast hc),
        if_pos (show r ≥ 1800 from hc)]
    have hsub : ((r : ℚ) - ((1800 : ℤ) : ℚ)) = ((r - 1800 : ℕ) : ℚ) := by
      push_cast [hc]
      ring
    rw [hsub]
    have hq2 : ⌊((r - 1800 : ℕ) : ℚ) / ((1798 : ℤ) : ℚ)⌋ = (((r - 1800) / 1798 : ℕ) : ℤ) := by
      rw [show ((1798 : ℤ) : ℚ) = ((1798 : ℕ) : ℚ) from by norm_num]
      exact rat_floor_natCast_div_natCast _ 1798
    rw [hq2]
    push_cast
    ring
  · rw [if_neg (show ¬((r : ℚ) ≥ ((1800 : ℤ) : ℚ)) from by exact_mod_cast hc),
        if_neg (show ¬(r ≥ 1800) from hc)]
    push_cast
    ring

/-- On natural-number frame indices, the rational dropped-frame count of the
source agrees with its `ℕ` restriction, under the 59.94 drop standard. -/
theorem framesDroppedCast5994 (n : ℕ) :
    framesDroppedBeforeFrameIdx_ (n : ℚ) ⟨60000, 1001, 60, 36⟩ =
      (framesDroppedBeforeNat_ n ⟨60000, 1001, 60, 36⟩ : ℤ) := by
  simp only [framesDroppedBeforeFrameIdx_, framesDroppedBeforeNat_, framesPerDroppedBlock_,
    MINS_PER_HR_, SECS_PER_MIN_]
  simp only [if_neg (show ¬(36 : ℕ) = 0 from by decide), Nat.reduceMul, Nat.reduceDiv,
    Nat.reduceSub, Nat.cast_ofNat, Int.reduceMul, Int.reduceSub]
  have hq : ⌊(n : ℚ) / ((35964 : ℤ) : ℚ)⌋ = ((n / 35964 : ℕ) : ℤ) := by
    rw [show ((35964 : ℤ) : ℚ) = ((35964 : ℕ) : ℚ) from by norm_num]
    exact rat_floor_natCast_div_natCast n 35964
  rw [hq]
  have hle : 35964 * (n / 35964) ≤ n := by omega
  have hrem : (n : ℚ) - ((35964 : ℤ) : ℚ) * (((n / 35964 : ℕ) : ℤ) : ℚ)
      = ((n - 35964 * (n / 35964) : ℕ) : ℚ) := by
    push_cast [hle]
    rw [show (((n : ℤ) / 35964 : ℤ) : ℚ) = ((n / 35964 : ℕ) : ℚ) from
      (congrArg (fun z : ℤ => (z : ℚ))
        (show ((n : ℤ) / 35964 : ℤ) = ((n / 35964 : ℕ) : ℤ) from by omega)).trans
      (Int.cast_natCast _)]
  rw [hrem]
  set r : ℕ := n - 35964 * (n / 35964) with hr
  by_cases hc : 3600 ≤ r
  · rw [if_pos (show ((r : ℚ) ≥ ((3600 : ℤ) : ℚ)) from by exact_mod_cast hc),
        if_pos (show r ≥ 3600 from hc)]
    have hsub : ((r : ℚ) - ((3600 : ℤ) : ℚ)) = ((r - 3600 : ℕ) : ℚ) := by
      push_cast [hc]
      ring
    rw [hsub]
    have hq2 : ⌊((r - 3600 : ℕ) : ℚ) / ((3596 : ℤ) : ℚ)⌋ = (((r - 3600) / 3596 : ℕ) : ℤ) := by
      rw [show ((3596 : ℤ) : ℚ) = ((3596 : ℕ) : ℚ) from by norm_num]
      exact rat_floor_natCast_div_natCast _ 3596
    rw [hq2]
    push_cast
    ring
  · rw [if_neg (show ¬((r : ℚ) ≥ ((3600 : ℤ) : ℚ)) from by exact_mod_cast hc),
        if_neg (show ¬(r ≥ 3600) from hc)]
    push_cast
    ring

/-- On natural-number frame indices, the rational dropped-frame count of the
source agrees with its `ℕ` restriction, for every supported standard. -/
theorem framesDropped_cast (std : TcStd) (hmem : std ∈ supportedStdList) (n : ℕ) :
    framesDroppedBeforeFrameIdx_ (n : ℚ) std = (framesDroppedBeforeNat_ n std : ℤ) := by
  simp only [supportedStdList, List.mem_cons, List.not_mem_nil, or_false] at hmem
  rcases hmem with rfl|rfl|rfl|rfl|rfl|rfl|rfl|rfl|rfl|rfl|rfl|rfl
  · rfl
  · rfl
  · rfl
  · rfl
  · exact framesDroppedCast2997 n
  · rfl
  · rfl
  · rfl
  · rfl
  · rfl
  · exact framesDroppedCast5994 n
  · rfl

/-- Cast form of one floor-division remainder step of `frameIdxToTc_`. -/
theorem rat_sub_div_mul (M d : ℕ) :
    (M : ℚ) - (((M / d : ℕ) : ℤ) : ℚ) * ((d : ℕ) : ℚ) = ((M - M / d * d : ℕ) : ℚ) := by
  have h : M / d * d ≤ M := Nat.div_mul_le_self M d
  rw [Int.cast_natCast, Nat.cast_sub h, Nat.cast_mul]

/-- Bridge between the source's rational, string-producing `frameIdxToTc_` and
the natural-number field decomposition `frameIdxToParsedTc_`: on every
natural-number frame index and supported standard, `frameIdxToTc_` succeeds
and returns exactly the rendered form of the decomposed timecode. -/
theorem frameIdxToTc_natCast (std : TcStd) (hmem : std ∈ supportedStdList) (n : ℕ) :
    frameIdxToTc_ (n : ℚ) std = .ok (tcToStr_ (frameIdxToParsedTc_ n std)) := by
  have hD := framesDropped_cast std hmem n
  simp only [frameIdxToTc_, frameIdxToParsedTc_, tcToStr_, jsPadStart2Num,
    if_neg (show ¬((n : ℚ) < 0) from not_lt.mpr (by positivity)), hD]
  rw [show ((((std.intFps * SECS_PER_MIN_ : ℕ) : ℤ) * ((MINS_PER_HR_ : ℕ) : ℤ) : ℤ) : ℚ)
      = ((std.intFps * SECS_PER_MIN_ * MINS_PER_HR_ : ℕ) : ℚ) from by push_cast; ring]
  rw [show (((std.intFps * SECS_PER_MIN_ : ℕ) : ℤ) : ℚ)
      = ((std.intFps * SECS_PER_MIN_ : ℕ) : ℚ) from Int.cast_natCast _]
  rw [show ((n : ℚ) + (((framesDroppedBeforeNat_ n std : ℕ) : ℤ) : ℚ))
      = ((n + framesDroppedBeforeNat_ n std : ℕ) : ℚ) from by push_cast; ring]
  rw [rat_floor_natCast_div_natCast]
  rw [rat_sub_div_mul (n + framesDroppedBeforeNat_ n std)
    (std.intFps * SECS_PER_MIN_ * MINS_PER_HR_)]
  rw [rat_floor_natCast_div_natCast]
  rw [rat_sub_div_mul]
  rw [rat_floor_natCast_div_natCast]
  rw [rat_sub_div_mul]
  simp only [Int.cast_natCast, jsRatStr_natCast]

/-- C1: for every supported standard, converting any non-negative frame index
to a timecode and back yields the same index, and converting any timecode that
validates under the standard to a frame index and back yields the same
timecode (the index also being non-negative). -/
theorem claim_C1_round_trip (std : TcStd) (hsup : SupportedStd std) :
    (∀ i : Nat, tcToFrameIdx_ (frameIdxToParsedTc_ i std) std = (i : Int)) ∧
    (∀ (raw : JsVal) (tc : ParsedTimecode), validateTc_ raw tc std = .ok () →
      0 ≤ tcToFrameIdx_ tc std ∧
        frameIdxToParsedTc_ (tcToFrameIdx_ tc std).toNat std = tc) := by
  have hmem := supportedStd_mem std hsup
  refine ⟨fun i => tcRoundTrip1 std hmem i, fun raw tc hval => ?_⟩
  obtain ⟨hh, mm, ss, ff⟩ := tc
  obtain ⟨hmm, hss, hff, hnd, -⟩ := (validateTc_ok_iff raw ⟨hh, mm, ss, ff⟩ std).mp hval
  exact tcRoundTrip2 std hmem hh mm ss ff hmm hss hff hnd

/-- Witness for C1 at the 29.97 drop standard: index 1800 and timecode
00:01:00:02. -/
theorem claim_C1_round_trip_witness :
    tcToFrameIdx_ (frameIdxToParsedTc_ 1800 ⟨30000, 1001, 30, 18⟩) ⟨30000, 1001, 30, 18⟩ =
        1800 ∧
      (0 ≤ tcToFrameIdx_ ⟨0, 1, 0, 2⟩ ⟨30000, 1001, 30, 18⟩ ∧
        frameIdxToParsedTc_ (tcToFrameIdx_ ⟨0, 1, 0, 2⟩ ⟨30000, 1001, 30, 18⟩).toNat
            ⟨30000, 1001, 30, 18⟩ = ⟨0, 1, 0, 2⟩) :=
  ⟨(claim_C1_round_trip ⟨30000, 1001, 30, 18⟩ ⟨.str "29.97", .str "drop", by decide⟩).1 1800,
   (claim_C1_round_trip ⟨30000, 1001, 30, 18⟩ ⟨.str "29.97", .str "drop", by decide⟩).2
     (.num (.fin 0)) ⟨0, 1, 0, 2⟩ (by decide)⟩

/-- C2: the frame index of a timecode is the positional count
`intFps * (3600 hh + 60 mm + ss) + ff`, minus, under a drop standard, the
frames dropped before it (`6 dropFramesPer10Mins` per hour,
`dropFramesPer10Mins` per complete 10-minute block, one dropped block per
begun drop minute); in particular under 29.97 drop, 00:00:59:29 has index 1799
and 00:01:00:02 has index 1800. -/
theorem claim_C2_tc_to_frame_index :
    (∀ (tc : ParsedTimecode) (std : TcStd),
      tcToFrameIdx_ tc std =
        ((std.intFps * (3600 * tc.hh + 60 * tc.mm + tc.ss) + tc.ff : Nat) : Int) -
          (if 0 < std.dropFramesPer10Mins then
            ((tc.hh * (6 * std.dropFramesPer10Mins) +
              (tc.mm / 10) * std.dropFramesPer10Mins +
              (tc.mm % 10) * (std.dropFramesPer10Mins / 9) : Nat) : Int)
          else 0)) ∧
    parseTcStd_ (.str "29.97") (.str "drop") = .ok ⟨30000, 1001, 30, 18⟩ ∧
    tcToFrameIdx_ ⟨0, 0, 59, 29⟩ ⟨30000, 1001, 30, 18⟩ = 1799 ∧
    tcToFrameIdx_ ⟨0, 1, 0, 2⟩ ⟨30000, 1001, 30, 18⟩ = 1800 := by
  refine ⟨fun tc std => ?_, by decide, by decide, by decide⟩
  simp only [tcToFrameIdx_, framesPerDroppedBlock_, MINS_PER_HR_, SECS_PER_MIN_]
  split_ifs with h
  · push_cast
    ring
  · push_cast
    ring

/-- C3: validation fails exactly when a field is out of range
(`mm ≥ 60`, `ss ≥ 60`, `ff ≥ intFps`), or the timecode names a dropped frame
under a drop standard, or a semicolon-separated text form is used with a
non-drop standard; `hh` is never range-checked. -/
theorem claim_C3_validate_errors (timecode : JsVal) (tc : ParsedTimecode) (std : TcStd) :
    validateTc_ timecode tc std ≠ .ok () ↔
      (60 ≤ tc.mm ∨ 60 ≤ tc.ss ∨ std.intFps ≤ tc.ff ∨
       (0 < std.dropFramesPer10Mins ∧ tc.ss = 0 ∧ tc.mm % 10 ≠ 0 ∧
         tc.ff < std.dropFramesPer10Mins / 9) ∨
       (∃ s, timecode = .str s ∧ s.contains ';' = true ∧ std.dropFramesPer10Mins = 0)) := by
  rw [Ne, validateTc_ok_iff]
  constructor
  · intro h
    by_contra hD
    push_neg at hD
    obtain ⟨h1, h2, h3, h4, h5⟩ := hD
    refine h ⟨by omega, by omega, by omega, ?_, h5⟩
    rintro ⟨ha, hb, hc, hd⟩
    exact absurd hd (by have := h4 (by omega) hb hc; omega)
  · rintro (h | h | h | ⟨ha, hb, hc, hd⟩ | ⟨s, hs, hsem, hzero⟩) ⟨g1, g2, g3, g4, g5⟩
    · omega
    · omega
    · omega
    · exact g4 ⟨by omega, hb, hc, hd⟩
    · exact g5 s hs hsem hzero

/-- C4: the validity-check operation never raises; it returns the empty string
exactly when the standard resolves, the timecode parses, and it validates
under the standard (being a total function into `String`, it signals errors
only through its non-empty result text). -/
theorem claim_C4_tc_error_total (timecode frameRate dropType : JsVal) :
    TC_ERROR timecode frameRate dropType = "" ↔
      ∃ std tc, parseTcStd_ frameRate dropType = .ok std ∧
        parseTc_ timecode = .ok tc ∧ validateTc_ timecode tc std = .ok () := by
  unfold TC_ERROR
  rcases hstd : parseTcStd_ frameRate dropType with estd | std
  · rw [except_bind_err]
    refine iff_of_false (parseTcStd_error_msg _ _ _ hstd) ?_
    rintro ⟨std, tc, h1, -, -⟩
    exact Except.noConfusion h1
  · rw [except_bind_ok]
    rcases htc : parseTc_ timecode with epc | tc
    · rw [except_bind_err]
      refine iff_of_false (parseTc_error_msg _ _ htc) ?_
      rintro ⟨std2, tc2, -, h2, -⟩
      exact Except.noConfusion h2
    · rw [except_bind_ok]
      rcases hval : validateTc_ timecode tc std with ev | u
      · refine iff_of_false (validateTc_error_msg _ _ _ _ hval) ?_
        rintro ⟨std2, tc2, h1, h2, h3⟩
        injection h1 with h1e
        subst h1e
        injection h2 with h2e
        subst h2e
        rw [hval] at h3
        exact Except.noConfusion h3
      · cases u
        exact iff_of_true rfl ⟨std, tc, rfl, rfl, hval⟩

/-- C5: frame-index-to-wall-seconds returns exactly
`frameIdx * perWallSecs / frames`, rejects negative or non-integer frame
indices with `InvalidInput`, and the wall seconds between two valid timecodes
is `(endIdx - startIdx) * perWallSecs / frames`, negative when the end
precedes the start. -/
theorem claim_C5_wall_secs (frameRate dropType : JsVal) (std : TcStd)
    (hstd : parseTcStd_ frameRate dropType = .ok std) :
    (∀ i : Nat, FRAMEIDX_TO_WALL_SECS (.fin i) frameRate dropType =
        .ok ((i : ℚ) * (std.perWallSecs : ℚ) / (std.frames : ℚ))) ∧
    (∀ x : JsNum, (x.isInteger = false ∨ ∃ q : ℚ, x = .fin q ∧ q < 0) →
        FRAMEIDX_TO_WALL_SECS x frameRate dropType =
          .error (inputValueErr_ "frameIdx must be non-negative integer")) ∧
    (∀ (startV endV : JsVal) (startTc endTc : ParsedTimecode),
        parseTc_ startV = .ok startTc → validateTc_ startV startTc std = .ok () →
        parseTc_ endV = .ok endTc → validateTc_ endV endTc std = .ok () →
        WALL_SECS_BETWEEN_TCS startV endV frameRate dropType =
            .ok (((tcToFrameIdx_ endTc std - tcToFrameIdx_ startTc std : ℤ) : ℚ) *
              (std.perWallSecs : ℚ) / (std.frames : ℚ)) ∧
          (tcToFrameIdx_ endTc std < tcToFrameIdx_ startTc std →
            ((tcToFrameIdx_ endTc std - tcToFrameIdx_ startTc std : ℤ) : ℚ) *
              (std.perWallSecs : ℚ) / (std.frames : ℚ) < 0)) := by
  obtain ⟨hfr, hpw, hfps⟩ := supportedStdList_pos std (parseTcStd_ok_mem _ _ _ hstd)
  have hfrq : (0 : ℚ) < (std.frames : ℚ) := by exact_mod_cast hfr
  have hpwq : (0 : ℚ) < (std.perWallSecs : ℚ) := by exact_mod_cast hpw
  refine ⟨fun i => ?_, fun x hx => ?_, fun sV eV sTc eTc hps hvs hpe hve => ?_⟩
  · simp only [FRAMEIDX_TO_WALL_SECS, hstd, except_bind_ok, frameIdxToWallSecs_]
    rw [if_neg (by push_neg; exact ⟨by simp, by positivity⟩)]
    rfl
  · simp only [FRAMEIDX_TO_WALL_SECS, hstd, except_bind_ok]
    rcases x with q | _ | _ | _
    · dsimp only
      rcases hx with hint | ⟨q2, hq2, hlt⟩
      · simp only [JsNum.isInteger, beq_eq_false_iff_ne] at hint
        rw [if_pos (Or.inl hint)]
      · injection hq2 with hq2e
        subst hq2e
        rw [if_pos (Or.inr hlt)]
    · rfl
    · rfl
    · rfl
  · simp only [WALL_SECS_BETWEEN_TCS, hstd, hps, hvs, hpe, hve, except_bind_ok]
    refine ⟨rfl, fun hlt => ?_⟩
    apply div_neg_of_neg_of_pos _ hfrq
    apply mul_neg_of_neg_of_pos _ hpwq
    exact_mod_cast sub_neg.mpr hlt

/-- Witness for C5 at 24 fps non-drop, frame index 48. -/
theorem claim_C5_wall_secs_witness :
    FRAMEIDX_TO_WALL_SECS (.fin ((48 : ℕ) : ℚ)) (.str "24.00") (.str "non-drop") =
      .ok (((48 : ℕ) : ℚ) * (((⟨24, 1, 24, 0⟩ : TcStd).perWallSecs : ℕ) : ℚ) /
        (((⟨24, 1, 24, 0⟩ : TcStd).frames : ℕ) : ℚ)) :=
  (claim_C5_wall_secs (.str "24.00") (.str "non-drop") ⟨24, 1, 24, 0⟩ (by decide)).1 48

/-- C6: the LEFT boundary query returns the floor and the RIGHT boundary query
the ceiling of the fractional index `wallSecs * frames / perWallSecs`; the
floor and ceiling bracket the exact value and differ by 0 or 1; negative wall
seconds are permitted and give negative left indices; non-finite wall seconds
fail with `InvalidInput`. -/
theorem claim_C6_boundary (frameRate dropType : JsVal) (std : TcStd)
    (hstd : parseTcStd_ frameRate dropType = .ok std) :
    (∀ q : ℚ,
      WALL_SECS_TO_FRAMEIDX_LEFT (.fin q) frameRate dropType =
          .ok ⌊q * (std.frames : ℚ) / (std.perWallSecs : ℚ)⌋ ∧
        WALL_SECS_TO_FRAMEIDX_RIGHT (.fin q) frameRate dropType =
          .ok ⌈q * (std.frames : ℚ) / (std.perWallSecs : ℚ)⌉ ∧
        ((⌊q * (std.frames : ℚ) / (std.perWallSecs : ℚ)⌋ : ℚ) ≤
          q * (std.frames : ℚ) / (std.perWallSecs : ℚ)) ∧
        (q * (std.frames : ℚ) / (std.perWallSecs : ℚ) ≤
          (⌈q * (std.frames : ℚ) / (std.perWallSecs : ℚ)⌉ : ℚ)) ∧
        (⌈q * (std.frames : ℚ) / (std.perWallSecs : ℚ)⌉ -
              ⌊q * (std.frames : ℚ) / (std.perWallSecs : ℚ)⌋ = 0 ∨
          ⌈q * (std.frames : ℚ) / (std.perWallSecs : ℚ)⌉ -
              ⌊q * (std.frames : ℚ) / (std.perWallSecs : ℚ)⌋ = 1) ∧
        (q < 0 → ⌊q * (std.frames : ℚ) / (std.perWallSecs : ℚ)⌋ < 0)) ∧
    (∀ x : JsNum, x.isFinite = false →
      WALL_SECS_TO_FRAMEIDX_LEFT x frameRate dropType =
          .error (inputValueErr_ ("wallSecs must be a finite number: " ++ jsNumToStr x)) ∧
        WALL_SECS_TO_FRAMEIDX_RIGHT x frameRate dropType =
          .error (inputValueErr_ ("wallSecs must be a finite number: " ++ jsNumToStr x))) := by
  obtain ⟨hfr, hpw, hfps⟩ := supportedStdList_pos std (parseTcStd_ok_mem _ _ _ hstd)
  have hfrq : (0 : ℚ) < (std.frames : ℚ) := by exact_mod_cast hfr
  have hpwq : (0 : ℚ) < (std.perWallSecs : ℚ) := by exact_mod_cast hpw
  refine ⟨fun q => ?_, fun x hfin => ?_⟩
  · refine ⟨?_, ?_, Int.floor_le _, Int.le_ceil _, ?_, fun hq => ?_⟩
    · simp only [WALL_SECS_TO_FRAMEIDX_LEFT, hstd, except_bind_ok,
        wallSecsToFractionalFrameIdx_]
      rfl
    · simp only [WALL_SECS_TO_FRAMEIDX_RIGHT, hstd, except_bind_ok,
        wallSecsToFractionalFrameIdx_]
      rfl
    · have h1 := Int.floor_le_ceil (q * (std.frames : ℚ) / (std.perWallSecs : ℚ))
      have h2 := Int.ceil_le_floor_add_one (q * (std.frames : ℚ) / (std.perWallSecs : ℚ))
      omega
    · refine Int.floor_lt.mpr ?_
      push_cast
      exact div_neg_of_neg_of_pos (mul_neg_of_neg_of_pos hq hfrq) hpwq
  · rcases x with q | _ | _ | _
    · exact absurd hfin (by simp [JsNum.isFinite])
    · exact ⟨by simp only [WALL_SECS_TO_FRAMEIDX_LEFT, hstd, except_bind_ok,
          wallSecsToFractionalFrameIdx_, except_bind_err],
        by simp only [WALL_SECS_TO_FRAMEIDX_RIGHT, hstd, except_bind_ok,
          wallSecsToFractionalFrameIdx_, except_bind_err]⟩
    · exact ⟨by simp only [WALL_SECS_TO_FRAMEIDX_LEFT, hstd, except_bind_ok,
          wallSecsToFractionalFrameIdx_, except_bind_err],
        by simp only [WALL_SECS_TO_FRAMEIDX_RIGHT, hstd, except_bind_ok,
          wallSecsToFractionalFrameIdx_, except_bind_err]⟩
    · exact ⟨by simp only [WALL_SECS_TO_FRAMEIDX_LEFT, hstd, except_bind_ok,
          wallSecsToFractionalFrameIdx_, except_bind_err],
        by simp only [WALL_SECS_TO_FRAMEIDX_RIGHT, hstd, except_bind_ok,
          wallSecsToFractionalFrameIdx_, except_bind_err]⟩

/-- Witness for C6 at 50 fps non-drop with the non-finite input NaN. -/
theorem claim_C6_boundary_witness :
    WALL_SECS_TO_FRAMEIDX_LEFT .nan (.str "50.00") (.str "non-drop") =
        .error (inputValueErr_ ("wallSecs must be a finite number: " ++ jsNumToStr .nan)) ∧
      WALL_SECS_TO_FRAMEIDX_RIGHT .nan (.str "50.00") (.str "non-drop") =
        .error (inputValueErr_ ("wallSecs must be a finite number: " ++ jsNumToStr .nan)) :=
  (claim_C6_boundary (.str "50.00") (.str "non-drop") ⟨50, 1, 50, 0⟩ (by decide)).2 .nan rfl

/-- Appending the empty string is the identity. -/
theorem str_append_empty (a : String) : a ++ "" = a := by
  obtain ⟨la⟩ := a
  show String.mk la ++ String.mk [] = String.mk la
  rw [str_mk_append, List.append_nil]

/-- String append is associative. -/
theorem str_append_assoc (a b c : String) : a ++ b ++ c = a ++ (b ++ c) := by
  obtain ⟨la⟩ := a
  obtain ⟨lb⟩ := b
  obtain ⟨lc⟩ := c
  simp only [str_mk_append, List.append_assoc]

/-- The duration formatter agrees with its specification-level description on
every finite input. -/
theorem durstr_eq (q : ℚ) : WALL_SECS_TO_DURSTR (.fin q) = .ok (durStrSpec q) := by
  have habs : (if q < 0 then -q else q) = |q| := by
    split_ifs with h
    · exact (abs_of_neg h).symm
    · exact (abs_of_nonneg (not_lt.mp h)).symm
  simp only [WALL_SECS_TO_DURSTR, durStrSpec, jsRound, habs, MINS_PER_HR_, SECS_PER_MIN_]
  refine congrArg Except.ok ?_
  rw [show (60 : ℕ) * 60 = 3600 from by norm_num]
  set n := ⌊|q| + 1 / 2⌋.toNat with hn
  have er1 : n - 3600 * (n / 3600) = n % 3600 := by omega
  rw [er1]
  have er2 : n % 3600 - 60 * (n % 3600 / 60) = n % 60 := by omega
  rw [er2]
  by_cases h0 : n / 3600 = 0
  · rw [if_neg (show ¬ n / 3600 > 0 from by omega), if_pos h0]
    by_cases hm0 : n % 3600 / 60 = 0
    · rw [if_neg (show ¬ (n / 3600 > 0 ∨ n % 3600 / 60 > 0) from by omega),
        if_pos (show n / 3600 = 0 ∧ n % 3600 / 60 = 0 from ⟨h0, hm0⟩)]
      simp [str_append_assoc, str_append_empty]
    · rw [if_pos (show n / 3600 > 0 ∨ n % 3600 / 60 > 0 from Or.inr (by omega)),
        if_neg (show ¬ n / 3600 > 0 from by omega),
        if_neg (show ¬ (n / 3600 = 0 ∧ n % 3600 / 60 = 0) from fun hc => hm0 hc.2),
        if_pos h0]
      simp [str_append_assoc, str_append_empty]
  · rw [if_pos (show n / 3600 > 0 from by omega), if_neg h0,
      if_pos (show n / 3600 > 0 ∨ n % 3600 / 60 > 0 from Or.inl (by omega)),
      if_pos (show n / 3600 > 0 from by omega),
      if_neg (show ¬ (n / 3600 = 0 ∧ n % 3600 / 60 = 0) from fun hc => h0 hc.1),
      if_neg h0]
    simp [str_append_assoc, str_append_empty]

/-- C7: on every finite input the duration formatter rounds the magnitude to
the nearest whole second (halves up), prefixes `"(-) "` exactly when the input
was negative and the rounded magnitude non-zero, omits the hours segment when
zero and the minutes segment when hours and minutes are both zero, pads
minutes to two digits only under an hours segment, always pads seconds, and
in particular maps 3765 to `"1h 02m 45s"`. -/
theorem claim_C7_duration_string :
    (∀ q : ℚ, WALL_SECS_TO_DURSTR (.fin q) = .ok (durStrSpec q)) ∧
    WALL_SECS_TO_DURSTR (.fin 3765) = .ok "1h 02m 45s" := by
  refine ⟨durstr_eq, ?_⟩
  rw [durstr_eq 3765]
  have hfl : ⌊|(3765 : ℚ)| + 1 / 2⌋ = 3765 := by
    rw [show |(3765 : ℚ)| = 3765 from abs_of_nonneg (by norm_num)]
    rw [Int.floor_eq_iff]
    constructor <;> norm_num
  unfold durStrSpec
  rw [hfl]
  decide

/-- C8 counterexample: the trimmed label "24x00" is not two digits, a decimal
point, and then two or three digits, yet resolution does not fail with the
format-violation message: the unescaped regex dot accepts the `x`, so the
label reaches the table lookup and fails with the unsupported-rate message
instead. -/
theorem claim_C8_counterexample :
    parseTcStd_ (.str "24x00") (.str "non-drop") =
        .error (inputValueErr_ "Unsupported frame rate: \"24x00\"") ∧
      "Unsupported frame rate: \"24x00\"" ≠
        "frameRate must contain 2 or 3 digits after period (e.g. \"23.976\" or \"24.00\")" := by
  decide

/-- C8 (amended): the format test accepts two digits, then any single
non-line-terminator character, then two or three digits; whenever the trimmed
label fails that test, resolution stops with the format-violation message
(for any drop flag), and that message is distinct from the unsupported-rate
message produced for a well-formed but unsupported label such as "26.00";
both failures are the single `invalidInput` error kind. -/
theorem claim_C8_amended_format (s : String)
    (hfmt : FRAME_RATE_STR_FMT_matches (jsTrim s) = false) (dt : JsVal) :
    parseTcStd_ (.str s) dt =
        .error (inputValueErr_
          "frameRate must contain 2 or 3 digits after period (e.g. \"23.976\" or \"24.00\")") ∧
      parseTcStd_ (.str "26.00") (.str "non-drop") =
        .error (inputValueErr_ "Unsupported frame rate: \"26.00\"") ∧
      "frameRate must contain 2 or 3 digits after period (e.g. \"23.976\" or \"24.00\")" ≠
        "Unsupported frame rate: \"26.00\"" := by
  refine ⟨?_, by decide, by decide⟩
  simp only [parseTcStd_, hfmt]
  rfl

/-- Witness for the amended C8 at the malformed label "24". -/
theorem claim_C8_amended_format_witness :
    parseTcStd_ (.str "24") (.str "non-drop") =
        .error (inputValueErr_
          "frameRate must contain 2 or 3 digits after period (e.g. \"23.976\" or \"24.00\")") ∧
      parseTcStd_ (.str "26.00") (.str "non-drop") =
        .error (inputValueErr_ "Unsupported frame rate: \"26.00\"") ∧
      "frameRate must contain 2 or 3 digits after period (e.g. \"23.976\" or \"24.00\")" ≠
        "Unsupported frame rate: \"26.00\"" :=
  claim_C8_amended_format "24" (by decide) (.str "non-drop")

/-- C9: a number supplied as a timecode parses exactly when it is a
non-negative integer at most 99999999, in which case it is read as the packed
decimal digits `HHMMSSFF`; in particular 4332211 parses as 04:33:22:11. -/
theorem claim_C9_packed_number :
    (∀ (x : JsNum) (tc : ParsedTimecode),
      parseTc_ (.num x) = .ok tc ↔
        ∃ n : Nat, x = .fin (n : ℚ) ∧ n ≤ 99999999 ∧
          tc = ⟨n / 1000000 % 100, n / 10000 % 100, n / 100 % 100, n % 100⟩) ∧
    parseTc_ (.num (.fin 4332211)) = .ok ⟨4, 33, 22, 11⟩ := by
  refine ⟨fun x tc => ?_, by decide⟩
  constructor
  · intro h
    rcases x with q | _ | _ | _
    · simp only [parseTc_] at h
      split_ifs at h with hcond
      push_neg at hcond
      obtain ⟨hden, hnonneg, hle⟩ := hcond
      have hnum0 : 0 ≤ q.num := Rat.num_nonneg.mpr hnonneg
      have hqeq : ((q.num.toNat : ℕ) : ℚ) = q := by
        rw [← (Rat.den_eq_one_iff q).mp hden]
        exact_mod_cast congrArg (fun z : ℤ => (z : ℚ)) (Int.toNat_of_nonneg hnum0)
      refine ⟨q.num.toNat, by rw [hqeq], ?_, ?_⟩
      · have hb : ((q.num.toNat : ℕ) : ℚ) ≤ ((99999999 : ℕ) : ℚ) := by
          rw [hqeq]
          exact_mod_cast hle
        exact_mod_cast hb
      · injection h with h2
        rw [← h2, ParsedTimecode.mk.injEq]
        refine ⟨?_, ?_, ?_, ?_⟩ <;> omega
    · simp only [parseTc_] at h
      exact Except.noConfusion h
    · simp only [parseTc_] at h
      exact Except.noConfusion h
    · simp only [parseTc_] at h
      exact Except.noConfusion h
  · rintro ⟨n, rfl, hle, rfl⟩
    simp only [parseTc_]
    rw [if_neg]
    · rw [Except.ok.injEq, ParsedTimecode.mk.injEq]
      have hnum : ((n : ℚ)).num.toNat = n := by
        rw [Rat.num_natCast]
        exact Int.toNat_natCast n
      refine ⟨?_, ?_, ?_, ?_⟩ <;> rw [hnum] <;> omega
    · push_neg
      refine ⟨Rat.den_natCast n, by positivity, ?_⟩
      exact_mod_cast hle

/-- Rendering a frame index as timecode fails exactly on negative indices. -/
theorem frameIdxToTc_error_iff (q : ℚ) (std : TcStd) :
    (∃ e, frameIdxToTc_ q std = .error e) ↔ q < 0 := by
  unfold frameIdxToTc_
  split_ifs with h
  · exact iff_of_true ⟨_, rfl⟩ h
  · refine iff_of_false ?_ h
    rintro ⟨e, he⟩
    exact he

/-- C10: the timecode-producing operations fail exactly when the frame index
being rendered (after floor/ceiling for the wall-seconds variants) is
negative; a negative wall-seconds value whose ceiling index is 0 succeeds
with `00:00:00:00`; and a non-negative non-integer index is not rejected by
`FRAMEIDX_TO_TC`. -/
theorem claim_C10_negative_index (frameRate dropType : JsVal) (std : TcStd)
    (hstd : parseTcStd_ frameRate dropType = .ok std) :
    (∀ q : ℚ, (∃ e, FRAMEIDX_TO_TC q frameRate dropType = .error e) ↔ q < 0) ∧
    (∀ q : ℚ,
      ((∃ e, WALL_SECS_TO_TC_LEFT (.fin q) frameRate dropType = .error e) ↔
        ⌊q * (std.frames : ℚ) / (std.perWallSecs : ℚ)⌋ < 0) ∧
      ((∃ e, WALL_SECS_TO_TC_RIGHT (.fin q) frameRate dropType = .error e) ↔
        ⌈q * (std.frames : ℚ) / (std.perWallSecs : ℚ)⌉ < 0)) ∧
    (∀ q : ℚ, q < 0 → ⌈q * (std.frames : ℚ) / (std.perWallSecs : ℚ)⌉ = 0 →
      WALL_SECS_TO_TC_RIGHT (.fin q) frameRate dropType = .ok "00:00:00:00") ∧
    (∀ q : ℚ, 0 ≤ q → q.den ≠ 1 →
      ∃ s, FRAMEIDX_TO_TC q frameRate dropType = .ok s) := by
  have hmem := parseTcStd_ok_mem _ _ _ hstd
  refine ⟨fun q => ?_, fun q => ⟨?_, ?_⟩, fun q hq hceil => ?_, fun q hq hden => ?_⟩
  · simp only [FRAMEIDX_TO_TC, hstd, except_bind_ok]
    exact frameIdxToTc_error_iff q std
  · simp only [WALL_SECS_TO_TC_LEFT, hstd, except_bind_ok,
      wallSecsToFractionalFrameIdx_, except_bind_ok]
    rw [frameIdxToTc_error_iff]
    constructor
    · intro h
      exact_mod_cast h
    · intro h
      exact_mod_cast h
  · simp only [WALL_SECS_TO_TC_RIGHT, hstd, except_bind_ok,
      wallSecsToFractionalFrameIdx_, except_bind_ok]
    rw [frameIdxToTc_error_iff]
    constructor
    · intro h
      exact_mod_cast h
    · intro h
      exact_mod_cast h
  · simp only [WALL_SECS_TO_TC_RIGHT, hstd, except_bind_ok,
      wallSecsToFractionalFrameIdx_, except_bind_ok, hceil]
    rw [show (((0 : ℤ) : ℚ)) = (0 : ℚ) from Int.cast_zero]
    exact frameIdxToTc_zero std hmem
  · simp only [FRAMEIDX_TO_TC, hstd, except_bind_ok]
    unfold frameIdxToTc_
    rw [if_neg (not_lt.mpr hq)]
    exact ⟨_, rfl⟩

/-- Witness for C10 at 24 fps non-drop with frame index -5. -/
theorem claim_C10_negative_index_witness :
    ∃ e, FRAMEIDX_TO_TC (-5) (.str "24.00") (.str "non-drop") = .error e :=
  ((claim_C10_negative_index (.str "24.00") (.str "non-drop") ⟨24, 1, 24, 0⟩
    (by decide)).1 (-5)).mpr (by decide)
